import Mathlib

/-!
Formal model of the core numeric pipeline of the SAE-S6-Voronoi repository.

Coordinates are modelled as exact rationals (`ℚ`): every Python float is a
finite rational, and the repository's arithmetic (subtraction, squaring,
comparison) is modelled exactly.  The Euclidean distance `calculer_distance`
(which calls `math.sqrt`) is modelled over `ℝ`; since `Real.sqrt` is strictly
monotone on nonnegative reals, comparing two distances is equivalent to
comparing the squared distances (lemma `calculer_distance_lt_distSq_iff`
below), which keeps the classifier definitions executable over `ℚ`.
`float('inf')` is modelled as `⊤` in `WithTop ℚ`.
-/

set_option maxHeartbeats 1000000

/-- Squared Euclidean distance `(qx-px)^2 + (qy-py)^2` between two points,
the quantity driving both grid strategies. -/
def distSq (p q : ℚ × ℚ) : ℚ :=
  (q.1 - p.1) ^ 2 + (q.2 - p.2) ^ 2

lemma distSq_nonneg (p q : ℚ × ℚ) : 0 ≤ distSq p q := by
  unfold distSq; positivity

/-- Model of `calculer_distance` (claude/voronoi_app.py lines 73-87 and
phase1/main.py lines 21-29): the Euclidean distance
`math.sqrt((x2-x1)**2 + (y2-y1)**2)`, valued in `ℝ`. -/
noncomputable def calculer_distance (point1 point2 : ℚ × ℚ) : ℝ :=
  Real.sqrt (((point2.1 - point1.1 : ℚ) : ℝ) ^ 2 + ((point2.2 - point1.2 : ℚ) : ℝ) ^ 2)

lemma calculer_distance_eq_sqrt_distSq (p q : ℚ × ℚ) :
    calculer_distance p q = Real.sqrt ((distSq p q : ℚ) : ℝ) := by
  unfold calculer_distance distSq
  push_cast
  ring_nf

/-- Comparing the Euclidean distances computed by `calculer_distance` is
equivalent to comparing the squared distances: this justifies running the
scalar classifier on `distSq` over `ℚ`. -/
lemma calculer_distance_lt_distSq_iff (q a b : ℚ × ℚ) :
    calculer_distance q a < calculer_distance q b ↔ distSq q a < distSq q b := by
  rw [calculer_distance_eq_sqrt_distSq, calculer_distance_eq_sqrt_distSq,
    Real.sqrt_lt_sqrt_iff (by exact_mod_cast distSq_nonneg q a)]
  exact_mod_cast Iff.rfl

/-- Loop of `trouver_site_le_plus_proche` (claude/voronoi_app.py lines
104-113, identically phase1 `trouver_point_plus_proche` except for the
initial index): running minimum distance (`float('inf')` modelled as `⊤`)
and running best index, scanning the sites in order and updating only on a
strictly smaller distance.  The source compares `calculer_distance` values;
by `calculer_distance_lt_distSq_iff` comparing squared distances in `ℚ` is
equivalent. -/
def boucle_site (px py : ℚ) : WithTop ℚ → ℕ → ℕ → List (ℚ × ℚ) → ℕ
  | _, imin, _, [] => imin
  | dmin, imin, idx, p :: reste =>
    if ((distSq (px, py) p : ℚ) : WithTop ℚ) < dmin then
      boucle_site px py ((distSq (px, py) p : ℚ) : WithTop ℚ) idx (idx + 1) reste
    else
      boucle_site px py dmin imin (idx + 1) reste

/-- Model of `trouver_site_le_plus_proche` (claude/voronoi_app.py lines
90-113): `distance_min = float('inf')`, `index_plus_proche = 0`, then the
enumerated scan. -/
def trouver_site_le_plus_proche (px py : ℚ) (liste_points : List (ℚ × ℚ)) : ℕ :=
  boucle_site px py ⊤ 0 0 liste_points

/-- One step of the batched strategy of `generate_voronoi_grid`
(Fusion 4 I.A/voronoi_app.py lines 103-107), restricted to a single cell:
`mask = dist_sq < min_dists; min_dists[mask] = dist_sq[mask]; Z[mask] = i`. -/
def fusionStep (q : ℚ × ℚ) (acc : WithTop ℚ × ℕ) (ip : ℕ × (ℚ × ℚ)) : WithTop ℚ × ℕ :=
  if ((distSq q ip.2 : ℚ) : WithTop ℚ) < acc.1 then (((distSq q ip.2 : ℚ) : WithTop ℚ), ip.1) else acc

/-- Label assigned to one sample coordinate `q` by the batched strategy of
`generate_voronoi_grid` (Fusion 4 I.A/voronoi_app.py lines 97-107):
`Z` initialised to `0`, `min_dists` to `inf`, then one strict-less overwrite
pass per enumerated site. -/
def fusion_cell_label (q : ℚ × ℚ) (points : List (ℚ × ℚ)) : ℕ :=
  ((points.enum).foldl (fusionStep q) (⊤, 0)).2

/-- Model of the batched `generate_voronoi_grid` (Fusion 4 I.A,
lines 66-109) over an arbitrary grid of sample coordinates (the source uses
a meshgrid of `linspace` samples over the padded bounding box; the per-cell
computation is independent of how the sample coordinates were produced). -/
def generate_voronoi_grid (points : List (ℚ × ℚ)) (coords : List (List (ℚ × ℚ))) :
    List (List ℕ) :=
  coords.map (fun row => row.map (fun q => fusion_cell_label q points))

/-- Model of the scalar `generer_grille_voronoi` (claude/voronoi_app.py
lines 162-186): `grille[y, x] = trouver_site_le_plus_proche(x, y, points)`
for `y < hauteur`, `x < largeur`. -/
def generer_grille_voronoi (points : List (ℚ × ℚ)) (largeur hauteur : ℕ) :
    List (List ℕ) :=
  (List.range hauteur).map (fun y =>
    (List.range largeur).map (fun x => trouver_site_le_plus_proche (x : ℚ) (y : ℚ) points))

/-- The integer sample coordinates scanned by the scalar strategy. -/
def grilleEntiere (largeur hauteur : ℕ) : List (List (ℚ × ℚ)) :=
  (List.range hauteur).map (fun y =>
    (List.range largeur).map (fun x => ((x : ℚ), (y : ℚ))))

/-- Full characterisation of the scan loop: either no site beats the incoming
running minimum and the incoming index is returned, or the returned index is
`idx + k` where `l.get k` is the first site strictly below the incoming
minimum and below every earlier site, and no later site is strictly closer. -/
lemma boucle_site_spec (px py : ℚ) (l : List (ℚ × ℚ)) :
    ∀ (dmin : WithTop ℚ) (imin idx : ℕ),
      (boucle_site px py dmin imin idx l = imin ∧
        ∀ j, j < l.length → ¬ (((distSq (px, py) (l.getD j (0, 0)) : ℚ) : WithTop ℚ) < dmin)) ∨
      (∃ k, k < l.length ∧ boucle_site px py dmin imin idx l = idx + k ∧
        (((distSq (px, py) (l.getD k (0, 0)) : ℚ) : WithTop ℚ) < dmin) ∧
        (∀ j, j < k →
          distSq (px, py) (l.getD k (0, 0)) < distSq (px, py) (l.getD j (0, 0))) ∧
        (∀ j, k < j → j < l.length →
          distSq (px, py) (l.getD k (0, 0)) ≤ distSq (px, py) (l.getD j (0, 0)))) := by
  induction l with
  | nil =>
    intro dmin imin idx
    exact Or.inl ⟨rfl, fun j hj => absurd hj (Nat.not_lt_zero j)⟩
  | cons p reste ih =>
    intro dmin imin idx
    by_cases h : ((distSq (px, py) p : ℚ) : WithTop ℚ) < dmin
    · have hstep : boucle_site px py dmin imin idx (p :: reste)
          = boucle_site px py ((distSq (px, py) p : ℚ) : WithTop ℚ) idx (idx + 1) reste := by
        simp only [boucle_site, if_pos h]
      rcases ih ((distSq (px, py) p : ℚ) : WithTop ℚ) idx (idx + 1) with
        ⟨hres, hall⟩ | ⟨k, hk, hres, hlt, hbefore, hafter⟩
      · refine Or.inr ⟨0, Nat.succ_pos _, ?_, ?_, ?_, ?_⟩
        · rw [hstep, hres, Nat.add_zero]
        · simpa using h
        · intro j hj; exact absurd hj (Nat.not_lt_zero j)
        · intro j hj0 hjlen
          obtain ⟨j', rfl⟩ := Nat.exists_eq_add_of_lt hj0
          simp only [Nat.zero_add, List.getD_cons_succ, List.getD_cons_zero]
          have := hall j' (by simpa using hjlen)
          rw [not_lt] at this
          exact_mod_cast this
      · refine Or.inr ⟨k + 1, by simpa using hk, ?_, ?_, ?_, ?_⟩
        · rw [hstep, hres]; omega
        · have : ((distSq (px, py) (reste.getD k (0, 0)) : ℚ) : WithTop ℚ) < dmin :=
            lt_trans hlt h
          simpa using this
        · intro j hj
          match j with
          | 0 =>
            simp only [List.getD_cons_succ, List.getD_cons_zero]
            exact_mod_cast hlt
          | j' + 1 =>
            simp only [List.getD_cons_succ]
            exact hbefore j' (by omega)
        · intro j hjk hjlen
          match j with
          | 0 => omega
          | j' + 1 =>
            simp only [List.getD_cons_succ]
            exact hafter j' (by omega) (by simpa using hjlen)
    · have hstep : boucle_site px py dmin imin idx (p :: reste)
          = boucle_site px py dmin imin (idx + 1) reste := by
        simp only [boucle_site, if_neg h]
      rcases ih dmin imin (idx + 1) with
        ⟨hres, hall⟩ | ⟨k, hk, hres, hlt, hbefore, hafter⟩
      · refine Or.inl ⟨by rw [hstep, hres], ?_⟩
        intro j hjlen
        match j with
        | 0 => simpa using h
        | j' + 1 =>
          simp only [List.getD_cons_succ]
          exact hall j' (by simpa using hjlen)
      · refine Or.inr ⟨k + 1, by simpa using hk, ?_, ?_, ?_, ?_⟩
        · rw [hstep, hres]; omega
        · simpa using hlt
        · intro j hj
          match j with
          | 0 =>
            simp only [List.getD_cons_succ, List.getD_cons_zero]
            have hd : dmin ≤ ((distSq (px, py) p : ℚ) : WithTop ℚ) := not_lt.mp h
            have : ((distSq (px, py) (reste.getD k (0, 0)) : ℚ) : WithTop ℚ)
                < ((distSq (px, py) p : ℚ) : WithTop ℚ) := lt_of_lt_of_le hlt hd
            exact_mod_cast this
          | j' + 1 =>
            simp only [List.getD_cons_succ]
            exact hbefore j' (by omega)
        · intro j hjk hjlen
          match j with
          | 0 => omega
          | j' + 1 =>
            simp only [List.getD_cons_succ]
            exact hafter j' (by omega) (by simpa using hjlen)

/-- The scalar classifier on a nonempty site list returns an in-range index
that attains the minimum squared distance, and every strictly smaller index
is strictly farther (first-seen-wins on exact ties). -/
lemma trouver_spec (px py : ℚ) (l : List (ℚ × ℚ)) (h : l ≠ []) :
    trouver_site_le_plus_proche px py l < l.length ∧
    (∀ j, j < l.length →
      distSq (px, py) (l.getD (trouver_site_le_plus_proche px py l) (0, 0)) ≤
        distSq (px, py) (l.getD j (0, 0))) ∧
    (∀ j, j < trouver_site_le_plus_proche px py l →
      distSq (px, py) (l.getD j (0, 0)) >
        distSq (px, py) (l.getD (trouver_site_le_plus_proche px py l) (0, 0))) := by
  have hlen : 0 < l.length := List.length_pos.mpr h
  rcases boucle_site_spec px py l ⊤ 0 0 with ⟨_, hall⟩ | ⟨k, hk, hres, _, hbefore, hafter⟩
  · exact absurd (WithTop.coe_lt_top _) (hall 0 hlen)
  · have hres' : trouver_site_le_plus_proche px py l = k := by
      unfold trouver_site_le_plus_proche
      rw [hres, Nat.zero_add]
    rw [hres']
    refine ⟨hk, ?_, ?_⟩
    · intro j hj
      rcases lt_trichotomy j k with hjk | rfl | hkj
      · exact le_of_lt (hbefore j hjk)
      · exact le_refl _
      · exact hafter j hkj hj
    · intro j hj
      exact hbefore j hj

lemma enumFrom_foldl_eq_boucle (px py : ℚ) (l : List (ℚ × ℚ)) :
    ∀ (n : ℕ) (dmin : WithTop ℚ) (imin : ℕ),
      ((List.enumFrom n l).foldl (fusionStep (px, py)) (dmin, imin)).2
        = boucle_site px py dmin imin n l := by
  induction l with
  | nil => intro n dmin imin; rfl
  | cons p reste ih =>
    intro n dmin imin
    have h1 : List.enumFrom n (p :: reste) = (n, p) :: List.enumFrom (n + 1) reste := rfl
    rw [h1, List.foldl_cons]
    by_cases h : ((distSq (px, py) p : ℚ) : WithTop ℚ) < dmin
    · have hf : fusionStep (px, py) (dmin, imin) (n, p)
          = (((distSq (px, py) p : ℚ) : WithTop ℚ), n) := by
        simp only [fusionStep, if_pos h]
      rw [hf, ih (n + 1)]
      simp only [boucle_site, if_pos h]
    · have hf : fusionStep (px, py) (dmin, imin) (n, p) = (dmin, imin) := by
        simp only [fusionStep, if_neg h]
      rw [hf, ih (n + 1)]
      simp only [boucle_site, if_neg h]

/-- Per-cell agreement of the two strategies: the batched running-minimum
pass assigns every sample coordinate exactly the label the scalar classifier
returns. -/
lemma fusion_cell_label_eq_trouver (q : ℚ × ℚ) (points : List (ℚ × ℚ)) :
    fusion_cell_label q points = trouver_site_le_plus_proche q.1 q.2 points := by
  obtain ⟨px, py⟩ := q
  unfold fusion_cell_label trouver_site_le_plus_proche
  have h0 : points.enum = List.enumFrom 0 points := rfl
  rw [h0, enumFrom_foldl_eq_boucle]

/-- C1: for every list of sites (all coordinates finite rationals) and every
grid of sample coordinates, the scalar strategy (per-cell nearest-site scan,
`generer_grille_voronoi`) and the batched strategy (running
minimum-squared-distance with strict-less overwrite per site,
`generate_voronoi_grid`) produce identical label grids, including on exact
distance ties; in particular they agree cell by cell on any common sample
coordinate, and on the integer sample grid the full grids are equal. -/
theorem grid_strategies_equivalent :
    (∀ (q : ℚ × ℚ) (points : List (ℚ × ℚ)),
      fusion_cell_label q points = trouver_site_le_plus_proche q.1 q.2 points) ∧
    (∀ (points : List (ℚ × ℚ)) (largeur hauteur : ℕ),
      generate_voronoi_grid points (grilleEntiere largeur hauteur)
        = generer_grille_voronoi points largeur hauteur) := by
  refine ⟨fusion_cell_label_eq_trouver, ?_⟩
  intro points largeur hauteur
  unfold generate_voronoi_grid grilleEntiere generer_grille_voronoi
  simp only [List.map_map, Function.comp]
  congr 1
  funext y
  simp only [List.map_map, Function.comp]
  congr 1
  funext x
  exact fusion_cell_label_eq_trouver ((x : ℚ), (y : ℚ)) points

/-- C2: the nearest-site classifier is a pure function of its arguments
(hence deterministic) and, on a nonempty site list, returns an in-range
index attaining the minimum distance; on exact distance ties the lowest
index wins: every index smaller than the returned one is strictly farther. -/
theorem nearest_site_classifier_correct (px py : ℚ) (liste : List (ℚ × ℚ))
    (h : liste ≠ []) :
    trouver_site_le_plus_proche px py liste < liste.length ∧
    (∀ j, j < liste.length →
      distSq (px, py) (liste.getD (trouver_site_le_plus_proche px py liste) (0, 0)) ≤
        distSq (px, py) (liste.getD j (0, 0))) ∧
    (∀ j, j < trouver_site_le_plus_proche px py liste →
      distSq (px, py) (liste.getD (trouver_site_le_plus_proche px py liste) (0, 0)) <
        distSq (px, py) (liste.getD j (0, 0))) := by
  obtain ⟨h1, h2, h3⟩ := trouver_spec px py liste h
  exact ⟨h1, h2, fun j hj => h3 j hj⟩

theorem nearest_site_classifier_correct_witness :
    trouver_site_le_plus_proche 0 0 ([(1, 0), (0, 1), (1, 0)] : List (ℚ × ℚ)) <
        ([(1, 0), (0, 1), (1, 0)] : List (ℚ × ℚ)).length ∧
    (∀ j, j < ([(1, 0), (0, 1), (1, 0)] : List (ℚ × ℚ)).length →
      distSq (0, 0) (([(1, 0), (0, 1), (1, 0)] : List (ℚ × ℚ)).getD
          (trouver_site_le_plus_proche 0 0 ([(1, 0), (0, 1), (1, 0)] : List (ℚ × ℚ))) (0, 0)) ≤
        distSq (0, 0) (([(1, 0), (0, 1), (1, 0)] : List (ℚ × ℚ)).getD j (0, 0))) ∧
    (∀ j, j < trouver_site_le_plus_proche 0 0 ([(1, 0), (0, 1), (1, 0)] : List (ℚ × ℚ)) →
      distSq (0, 0) (([(1, 0), (0, 1), (1, 0)] : List (ℚ × ℚ)).getD
          (trouver_site_le_plus_proche 0 0 ([(1, 0), (0, 1), (1, 0)] : List (ℚ × ℚ))) (0, 0)) <
        distSq (0, 0) (([(1, 0), (0, 1), (1, 0)] : List (ℚ × ℚ)).getD j (0, 0))) :=
  nearest_site_classifier_correct 0 0 _ (by decide)

/-- C3: over a nonempty site list, every cell value of a grid generated by
either strategy is a valid site index: `0 ≤ v < points.length`. -/
theorem grid_values_in_range (points : List (ℚ × ℚ)) (largeur hauteur : ℕ)
    (coords : List (List (ℚ × ℚ))) (h : points ≠ []) :
    (∀ row ∈ generer_grille_voronoi points largeur hauteur, ∀ v ∈ row,
      0 ≤ v ∧ v < points.length) ∧
    (∀ row ∈ generate_voronoi_grid points coords, ∀ v ∈ row,
      0 ≤ v ∧ v < points.length) := by
  have hcell : ∀ px py : ℚ, trouver_site_le_plus_proche px py points < points.length :=
    fun px py => (trouver_spec px py points h).1
  constructor
  · intro row hrow v hv
    unfold generer_grille_voronoi at hrow
    obtain ⟨y, _, rfl⟩ := List.mem_map.mp hrow
    obtain ⟨x, _, rfl⟩ := List.mem_map.mp hv
    exact ⟨Nat.zero_le _, hcell _ _⟩
  · intro row hrow v hv
    unfold generate_voronoi_grid at hrow
    obtain ⟨r, _, rfl⟩ := List.mem_map.mp hrow
    obtain ⟨q, _, rfl⟩ := List.mem_map.mp hv
    rw [fusion_cell_label_eq_trouver]
    exact ⟨Nat.zero_le _, hcell _ _⟩

theorem grid_values_in_range_witness :
    (∀ row ∈ generer_grille_voronoi ([(0, 0), (1, 1)] : List (ℚ × ℚ)) 2 2, ∀ v ∈ row,
      0 ≤ v ∧ v < ([(0, 0), (1, 1)] : List (ℚ × ℚ)).length) ∧
    (∀ row ∈ generate_voronoi_grid ([(0, 0), (1, 1)] : List (ℚ × ℚ)) [[(0, 0)]], ∀ v ∈ row,
      0 ≤ v ∧ v < ([(0, 0), (1, 1)] : List (ℚ × ℚ)).length) :=
  grid_values_in_range ([(0, 0), (1, 1)] : List (ℚ × ℚ)) 2 2 [[(0, 0)]] (by decide)

/-- C4: the exposed Euclidean distance equals `sqrt(dx^2 + dy^2)`, is
symmetric, vanishes on identical points, and maps `(0,0), (3,4)` to `5`. -/
theorem distance_properties :
    (∀ A B : ℚ × ℚ, calculer_distance A B
        = Real.sqrt (((B.1 - A.1 : ℚ) : ℝ) ^ 2 + ((B.2 - A.2 : ℚ) : ℝ) ^ 2)) ∧
    (∀ A B : ℚ × ℚ, calculer_distance A B = calculer_distance B A) ∧
    (∀ A : ℚ × ℚ, calculer_distance A A = 0) ∧
    calculer_distance (0, 0) (3, 4) = 5 := by
  refine ⟨fun A B => rfl, ?_, ?_, ?_⟩
  · intro A B
    unfold calculer_distance
    congr 1
    push_cast
    ring
  · intro A
    unfold calculer_distance
    simp
  · unfold calculer_distance
    norm_num
    rw [show ((25 : ℝ)) = 5 ^ 2 by norm_num]
    exact Real.sqrt_sq (by norm_num)

/-- C10: called on an empty site list, the scalar classifier does not fail
and returns index 0 (the loop body never runs, so the initial value of
`index_plus_proche` is returned even though no site has index 0). -/
theorem classifier_empty_returns_zero (px py : ℚ) :
    trouver_site_le_plus_proche px py [] = 0 := rfl

/-- Python `min` over a list; the source only ever applies it to nonempty
lists (a `PointSet` has at least 2 points), the `[]` case is unreachable. -/
def listeMin : List ℚ → ℚ
  | [] => 0
  | x :: xs => xs.foldl min x

/-- Python `max` over a list; the `[]` case is unreachable, as for
`listeMin`. -/
def listeMax : List ℚ → ℚ
  | [] => 0
  | x :: xs => xs.foldl max x

lemma foldl_min_le_init (xs : List ℚ) : ∀ a : ℚ, List.foldl min a xs ≤ a := by
  induction xs with
  | nil => intro a; exact le_refl a
  | cons y ys ih =>
    intro a
    calc List.foldl min (min a y) ys ≤ min a y := ih (min a y)
    _ ≤ a := min_le_left a y

lemma foldl_min_le_mem (xs : List ℚ) :
    ∀ (a x : ℚ), x ∈ xs → List.foldl min a xs ≤ x := by
  induction xs with
  | nil => intro a x hx; exact absurd hx (List.not_mem_nil x)
  | cons y ys ih =>
    intro a x hx
    rcases List.mem_cons.mp hx with rfl | hx
    · calc List.foldl min (min a x) ys ≤ min a x := foldl_min_le_init ys (min a x)
      _ ≤ x := min_le_right a x
    · exact ih (min a y) x hx

lemma listeMin_le {l : List ℚ} {x : ℚ} (hx : x ∈ l) : listeMin l ≤ x := by
  cases l with
  | nil => exact absurd hx (List.not_mem_nil x)
  | cons a as =>
    rcases List.mem_cons.mp hx with rfl | hx
    · exact foldl_min_le_init as x
    · exact foldl_min_le_mem as a x hx

lemma init_le_foldl_max (xs : List ℚ) : ∀ a : ℚ, a ≤ List.foldl max a xs := by
  induction xs with
  | nil => intro a; exact le_refl a
  | cons y ys ih =>
    intro a
    calc a ≤ max a y := le_max_left a y
    _ ≤ List.foldl max (max a y) ys := ih (max a y)

lemma mem_le_foldl_max (xs : List ℚ) :
    ∀ (a x : ℚ), x ∈ xs → x ≤ List.foldl max a xs := by
  induction xs with
  | nil => intro a x hx; exact absurd hx (List.not_mem_nil x)
  | cons y ys ih =>
    intro a x hx
    rcases List.mem_cons.mp hx with rfl | hx
    · calc x ≤ max a x := le_max_right a x
      _ ≤ List.foldl max (max a x) ys := init_le_foldl_max ys (max a x)
    · exact ih (max a y) x hx

lemma le_listeMax {l : List ℚ} {x : ℚ} (hx : x ∈ l) : x ≤ listeMax l := by
  cases l with
  | nil => exact absurd hx (List.not_mem_nil x)
  | cons a as =>
    rcases List.mem_cons.mp hx with rfl | hx
    · exact init_le_foldl_max as x
    · exact mem_le_foldl_max as a x hx

/-- Per-point affine map of `normaliser_points`:
`marge + (coordinate - minimum) / range * (dimension - 2 * marge)` on each
axis. -/
def normalisePoint (x_min plage_x y_min plage_y largeur hauteur marge : ℚ)
    (p : ℚ × ℚ) : ℚ × ℚ :=
  (marge + (p.1 - x_min) / plage_x * (largeur - 2 * marge),
   marge + (p.2 - y_min) / plage_y * (hauteur - 2 * marge))

/-- Model of `normaliser_points` (claude/voronoi_app.py lines 120-155):
bounding box of the input, per-axis range defaulting to `1.0` on a
degenerate axis, then the affine map into `[marge, dimension - marge]`. -/
def normaliser_points (points : List (ℚ × ℚ)) (largeur hauteur marge : ℚ) :
    List (ℚ × ℚ) :=
  let xs := points.map Prod.fst
  let ys := points.map Prod.snd
  let x_min := listeMin xs
  let x_max := listeMax xs
  let y_min := listeMin ys
  let y_max := listeMax ys
  let plage_x := if x_max ≠ x_min then x_max - x_min else 1
  let plage_y := if y_max ≠ y_min then y_max - y_min else 1
  points.map (normalisePoint x_min plage_x y_min plage_y largeur hauteur marge)

lemma axis_bounds {v vmin vmax dim marge : ℚ}
    (hmin : vmin ≤ v) (hmax : v ≤ vmax) (hdim : 2 * marge ≤ dim) :
    marge ≤ marge + (v - vmin) / (if vmax ≠ vmin then vmax - vmin else 1) * (dim - 2 * marge) ∧
    marge + (v - vmin) / (if vmax ≠ vmin then vmax - vmin else 1) * (dim - 2 * marge)
      ≤ dim - marge := by
  by_cases hdeg : vmax ≠ vmin
  · rw [if_pos hdeg]
    have hpos : 0 < vmax - vmin := by
      rcases lt_or_eq_of_le (le_trans hmin hmax) with hlt | heq
      · linarith
      · exact absurd heq.symm hdeg
    have ht0 : 0 ≤ (v - vmin) / (vmax - vmin) := by
      apply div_nonneg <;> linarith
    have ht1 : (v - vmin) / (vmax - vmin) ≤ 1 := by
      rw [div_le_one hpos]; linarith
    constructor
    · nlinarith
    · nlinarith
  · rw [if_neg hdeg]
    push_neg at hdeg
    have hv : v = vmin := le_antisymm (hdeg ▸ hmax) hmin
    rw [hv]
    constructor
    · simp
    · simp; linarith

/-- C8: for a nonempty point list and dimensions at least twice the margin,
normalisation preserves the length and the positional order of the input
(the output is the pointwise image of the input, in order), and every
normalised coordinate lies inside `[marge, dimension - marge]`. -/
theorem normalisation_bounds (points : List (ℚ × ℚ)) (largeur hauteur marge : ℚ)
    (hne : points ≠ []) (hw : 2 * marge ≤ largeur) (hh : 2 * marge ≤ hauteur) :
    (normaliser_points points largeur hauteur marge).length = points.length ∧
    normaliser_points points largeur hauteur marge
      = points.map (normalisePoint (listeMin (points.map Prod.fst))
          (if listeMax (points.map Prod.fst) ≠ listeMin (points.map Prod.fst) then
            listeMax (points.map Prod.fst) - listeMin (points.map Prod.fst) else 1)
          (listeMin (points.map Prod.snd))
          (if listeMax (points.map Prod.snd) ≠ listeMin (points.map Prod.snd) then
            listeMax (points.map Prod.snd) - listeMin (points.map Prod.snd) else 1)
          largeur hauteur marge) ∧
    ∀ p ∈ normaliser_points points largeur hauteur marge,
      marge ≤ p.1 ∧ p.1 ≤ largeur - marge ∧ marge ≤ p.2 ∧ p.2 ≤ hauteur - marge := by
  refine ⟨by simp [normaliser_points], rfl, ?_⟩
  intro p hp
  unfold normaliser_points at hp
  obtain ⟨q, hq, rfl⟩ := List.mem_map.mp hp
  have hx1 : listeMin (points.map Prod.fst) ≤ q.1 :=
    listeMin_le (List.mem_map.mpr ⟨q, hq, rfl⟩)
  have hx2 : q.1 ≤ listeMax (points.map Prod.fst) :=
    le_listeMax (List.mem_map.mpr ⟨q, hq, rfl⟩)
  have hy1 : listeMin (points.map Prod.snd) ≤ q.2 :=
    listeMin_le (List.mem_map.mpr ⟨q, hq, rfl⟩)
  have hy2 : q.2 ≤ listeMax (points.map Prod.snd) :=
    le_listeMax (List.mem_map.mpr ⟨q, hq, rfl⟩)
  obtain ⟨hxa, hxb⟩ := axis_bounds hx1 hx2 hw
  obtain ⟨hya, hyb⟩ := axis_bounds hy1 hy2 hh
  exact ⟨hxa, hxb, hya, hyb⟩

theorem normalisation_bounds_witness :
    (normaliser_points ([(0, 0), (4, 8)] : List (ℚ × ℚ)) 10 10 2).length
        = ([(0, 0), (4, 8)] : List (ℚ × ℚ)).length ∧
    normaliser_points ([(0, 0), (4, 8)] : List (ℚ × ℚ)) 10 10 2
      = ([(0, 0), (4, 8)] : List (ℚ × ℚ)).map
          (normalisePoint (listeMin (([(0, 0), (4, 8)] : List (ℚ × ℚ)).map Prod.fst))
          (if listeMax (([(0, 0), (4, 8)] : List (ℚ × ℚ)).map Prod.fst)
              ≠ listeMin (([(0, 0), (4, 8)] : List (ℚ × ℚ)).map Prod.fst) then
            listeMax (([(0, 0), (4, 8)] : List (ℚ × ℚ)).map Prod.fst)
              - listeMin (([(0, 0), (4, 8)] : List (ℚ × ℚ)).map Prod.fst) else 1)
          (listeMin (([(0, 0), (4, 8)] : List (ℚ × ℚ)).map Prod.snd))
          (if listeMax (([(0, 0), (4, 8)] : List (ℚ × ℚ)).map Prod.snd)
              ≠ listeMin (([(0, 0), (4, 8)] : List (ℚ × ℚ)).map Prod.snd) then
            listeMax (([(0, 0), (4, 8)] : List (ℚ × ℚ)).map Prod.snd)
              - listeMin (([(0, 0), (4, 8)] : List (ℚ × ℚ)).map Prod.snd) else 1)
          10 10 2) ∧
    ∀ p ∈ normaliser_points ([(0, 0), (4, 8)] : List (ℚ × ℚ)) 10 10 2,
      (2 : ℚ) ≤ p.1 ∧ p.1 ≤ 10 - 2 ∧ (2 : ℚ) ≤ p.2 ∧ p.2 ≤ 10 - 2 :=
  normalisation_bounds ([(0, 0), (4, 8)] : List (ℚ × ℚ)) 10 10 2
    (by decide) (by norm_num) (by norm_num)

/-- Value domain of Python `float(...)`: a finite rational, one of the two
infinities, or nan.  Python's `float` accepts the spellings `inf`,
`infinity` and `nan` (case-insensitive, optionally signed), so non-finite
values can be produced by parsing. -/
inductive PyFloat
  | finite (q : ℚ)
  | inf
  | ninf
  | nan
deriving DecidableEq, Repr

/-- Python `str.strip()`: remove leading and trailing whitespace. -/
def pyStrip (s : List Char) : List Char :=
  ((s.dropWhile Char.isWhitespace).reverse.dropWhile Char.isWhitespace).reverse

/-- Python `str.split(',')`: split on every comma; `n` commas yield `n + 1`
fields, empty fields included. -/
def splitVirgule : List Char → List (List Char)
  | [] => [[]]
  | c :: r =>
    if c = ',' then [] :: splitVirgule r
    else
      match splitVirgule r with
      | [] => [[c]]
      | f :: fs => (c :: f) :: fs

def tousChiffres (l : List Char) : Bool :=
  l.all Char.isDigit

def valNat (l : List Char) : ℕ :=
  l.foldl (fun a c => 10 * a + (c.toNat - 48)) 0

/-- Split at the first occurrence of `c`: the part before it and, when `c`
occurs, the part after it. -/
def coupe (c : Char) : List Char → List Char × Option (List Char)
  | [] => ([], none)
  | d :: r =>
    if d = c then ([], some r)
    else
      let (avant, apres) := coupe c r
      (d :: avant, apres)

def parseSigne : List Char → Bool × List Char
  | '+' :: r => (false, r)
  | '-' :: r => (true, r)
  | r => (false, r)

/-- Mantissa of a Python decimal literal: optional digits, optional dot,
optional digits, with at least one digit overall (`1`, `1.`, `.5`, `1.5`
are accepted; `.` and the empty string are not). -/
def mantisse (s : List Char) : Option ℚ :=
  let (ip, fpo) := coupe '.' s
  let fp := fpo.getD []
  if tousChiffres ip && tousChiffres fp && !(ip.isEmpty && fp.isEmpty) then
    some ((valNat ip : ℚ) + (valNat fp : ℚ) / (10 : ℚ) ^ fp.length)
  else none

/-- Model of Python's `float(str)` conversion: strip whitespace, lower-case,
optional sign, then `inf` / `infinity` / `nan` or a decimal literal with
optional fractional part and optional exponent.  (Digit-group underscores
and non-ASCII digits, which CPython also accepts, are not modelled; no
claim depends on them.) -/
def parsePyFloatChars (s : List Char) : Option PyFloat :=
  let t := (pyStrip s).map Char.toLower
  let (neg, r) := parseSigne t
  if r = ['i', 'n', 'f'] ∨ r = ['i', 'n', 'f', 'i', 'n', 'i', 't', 'y'] then
    some (if neg then PyFloat.ninf else PyFloat.inf)
  else if r = ['n', 'a', 'n'] then
    some PyFloat.nan
  else
    let (m, eo) := coupe 'e' r
    match mantisse m with
    | none => none
    | some q =>
      let signe : ℚ → ℚ := fun v => if neg then -v else v
      match eo with
      | none => some (PyFloat.finite (signe q))
      | some es =>
        let (eneg, ed) := parseSigne es
        if !ed.isEmpty && tousChiffres ed then
          some (PyFloat.finite
            (signe (q * (10 : ℚ) ^ (if eneg then -(valNat ed : ℤ) else (valNat ed : ℤ)))))
        else none

/-- Error taxonomy of the claude parser `lire_coordonnees`
(claude/voronoi_app.py lines 18-66).  `malFormatee n` carries the 1-based
line number of a non-blank line that does not split into exactly two
comma-separated fields; `nonNumerique n champ1 champ2` carries the line
number at which a field was rejected by `float`, together with the two
field texts the source message embeds ("impossible de convertir
'valeurs[0]' ou 'valeurs[1]' en nombre", so the offending field is named
in the error); `pointsInsuffisants trouves` carries the number of points
found when fewer than the required 2 were parsed (the source message
reports both numbers: "au moins 2 points... seulement N point(s)"). -/
inductive ErreurLecture
  | malFormatee (ligne : ℕ)
  | nonNumerique (ligne : ℕ) (champ1 champ2 : List Char)
  | pointsInsuffisants (trouves : ℕ)
deriving DecidableEq, Repr

/-- Line loop of `lire_coordonnees` (claude/voronoi_app.py lines 39-58):
1-based line counter, blank lines skipped, split on commas, both fields
converted by `float`; the first failure aborts the whole parse. -/
def lireLignes : ℕ → List String → Except ErreurLecture (List (PyFloat × PyFloat))
  | _, [] => Except.ok []
  | n, s :: reste =>
    if (pyStrip s.data).isEmpty then lireLignes (n + 1) reste
    else
      match splitVirgule (pyStrip s.data) with
      | [vx, vy] =>
        match parsePyFloatChars vx, parsePyFloatChars vy with
        | some x, some y => (lireLignes (n + 1) reste).map (fun pts => (x, y) :: pts)
        | _, _ => Except.error (ErreurLecture.nonNumerique n vx vy)
      | _ => Except.error (ErreurLecture.malFormatee n)

/-- Model of `lire_coordonnees` (claude/voronoi_app.py lines 18-66) on the
list of lines of the input text: run the line loop, then require at least
2 points. -/
def lire_coordonnees (lignes : List String) :
    Except ErreurLecture (List (PyFloat × PyFloat)) :=
  match lireLignes 1 lignes with
  | Except.error e => Except.error e
  | Except.ok pts =>
    if pts.length < 2 then Except.error (ErreurLecture.pointsInsuffisants pts.length)
    else Except.ok pts

/-- Model of the phase-1 `lire_coordonnees` (phase1/main.py lines 8-19):
lines that do not split into exactly two fields are silently skipped
(`if len(valeurs) == 2`), and a failing `float` conversion raises an
uncaught bare `ValueError` carrying no line number (modelled as
`Except.error ()`); there is no minimum-point check. -/
def lire_coordonnees_phase1 : List String → Except Unit (List (PyFloat × PyFloat))
  | [] => Except.ok []
  | s :: reste =>
    match splitVirgule (pyStrip s.data) with
    | [vx, vy] =>
      match parsePyFloatChars vx, parsePyFloatChars vy with
      | some x, some y => (lire_coordonnees_phase1 reste).map (fun pts => (x, y) :: pts)
      | _, _ => Except.error ()
    | _ => lire_coordonnees_phase1 reste

lemma lireLignes_append_ok (pre : List String) :
    ∀ (n : ℕ) (pts : List (PyFloat × PyFloat)) (rest : List String),
      lireLignes n pre = Except.ok pts →
      lireLignes n (pre ++ rest)
        = (lireLignes (n + pre.length) rest).map (fun q => pts ++ q) := by
  induction pre with
  | nil =>
    intro n pts rest h
    have hpts : pts = [] := by
      have h0 : lireLignes n [] = Except.ok ([] : List (PyFloat × PyFloat)) := rfl
      rw [h0] at h
      exact (Except.ok.inj h).symm
    subst hpts
    simp only [List.nil_append, List.length_nil, Nat.add_zero]
    rcases lireLignes n rest with e | q <;> simp [Except.map]
  | cons s pre ih =>
    intro n pts rest h
    by_cases hblank : pyStrip s.data = []
    · have hh : lireLignes (n + 1) pre = Except.ok pts := by
        simpa [lireLignes, hblank] using h
      have hg : lireLignes n ((s :: pre) ++ rest) = lireLignes (n + 1) (pre ++ rest) := by
        simp [lireLignes, hblank]
      rw [hg, ih (n + 1) pts rest hh]
      have harith : n + 1 + pre.length = n + (s :: pre).length := by
        simp [List.length_cons]; omega
      rw [harith]
    · rcases hsp : splitVirgule (pyStrip s.data) with _ | ⟨vx, rest2⟩
      · simp [lireLignes, hblank, hsp] at h
      · rcases rest2 with _ | ⟨vy, rest3⟩
        · simp [lireLignes, hblank, hsp] at h
        · rcases rest3 with _ | ⟨vz, rest4⟩
          · rcases hx : parsePyFloatChars vx with _ | x
            · simp [lireLignes, hblank, hsp, hx] at h
            · rcases hy : parsePyFloatChars vy with _ | y
              · simp [lireLignes, hblank, hsp, hx, hy] at h
              · rcases hrec : lireLignes (n + 1) pre with e | pts'
                · simp [lireLignes, hblank, hsp, hx, hy, hrec, Except.map] at h
                · have hpts : pts = (x, y) :: pts' := by
                    have := h
                    simp [lireLignes, hblank, hsp, hx, hy, hrec, Except.map] at this
                    exact this.symm
                  subst hpts
                  have hg : lireLignes n ((s :: pre) ++ rest)
                      = (lireLignes (n + 1) (pre ++ rest)).map (fun q => (x, y) :: q) := by
                    simp [lireLignes, hblank, hsp, hx, hy]
                  rw [hg, ih (n + 1) pts' rest hrec]
                  have harith : n + 1 + pre.length = n + (s :: pre).length := by
                    simp [List.length_cons]; omega
                  rw [harith]
                  rcases lireLignes (n + (s :: pre).length) rest with e | q <;>
                    simp [Except.map]
          · simp [lireLignes, hblank, hsp] at h

deriving instance DecidableEq for Except

/-- Error taxonomy of the Gemini parser `parse_points_file`
(Gemini/main.py lines 9-50).  Its non-numeric message is "Coordonnées non
numériques ligne N." — it names the (1-based) line number only, never the
offending field, so the constructor carries nothing but the line number. -/
inductive ErreurGemini
  | formatIncorrect (ligne : ℕ)
  | nonNumerique (ligne : ℕ)
  | moinsDeDeuxPoints
deriving DecidableEq, Repr

/-- Line loop of the Gemini `parse_points_file` (Gemini/main.py lines
31-45): `enumerate(f)` is 0-based but every message reports
`line_idx + 1`, modelled as a 1-based counter; blank lines skipped; the
same split and `float` conversions as the claude parser. -/
def geminiLignes : ℕ → List String → Except ErreurGemini (List (PyFloat × PyFloat))
  | _, [] => Except.ok []
  | n, s :: reste =>
    if (pyStrip s.data).isEmpty then geminiLignes (n + 1) reste
    else
      match splitVirgule (pyStrip s.data) with
      | [vx, vy] =>
        match parsePyFloatChars vx, parsePyFloatChars vy with
        | some x, some y => (geminiLignes (n + 1) reste).map (fun pts => (x, y) :: pts)
        | _, _ => Except.error (ErreurGemini.nonNumerique n)
      | _ => Except.error (ErreurGemini.formatIncorrect n)

/-- Model of the Gemini `parse_points_file` (Gemini/main.py lines 9-50):
run the line loop, then require at least 2 points (message without any
count: "Le fichier doit contenir au moins 2 points..."). -/
def parse_points_file (lignes : List String) :
    Except ErreurGemini (List (PyFloat × PyFloat)) :=
  match geminiLignes 1 lignes with
  | Except.error e => Except.error e
  | Except.ok pts =>
    if pts.length < 2 then Except.error ErreurGemini.moinsDeDeuxPoints
    else Except.ok pts

/-- Error taxonomy of the Fusion `read_points_file`
(Fusion 4 I.A/voronoi_app.py lines 23-63).  Its insufficient-points
message is the fixed string "Le fichier doit contenir au moins 2 points
pour générer un diagramme." — it states the requirement but not how many
points were found, so `moinsDeDeuxPoints` carries no count. -/
inductive ErreurFusion
  | formatIncorrect (ligne : ℕ)
  | valeursNonNumeriques (ligne : ℕ)
  | moinsDeDeuxPoints
deriving DecidableEq, Repr

/-- Line loop of the Fusion `read_points_file` (Fusion 4 I.A/voronoi_app.py
lines 42-57): 1-based `enumerate(f, start=1)`, blank lines skipped, split
on commas, each field stripped then converted by `float` (stripping before
`float` is a no-op since `float` strips too). -/
def fusionParseLignes : ℕ → List String → Except ErreurFusion (List (PyFloat × PyFloat))
  | _, [] => Except.ok []
  | n, s :: reste =>
    if (pyStrip s.data).isEmpty then fusionParseLignes (n + 1) reste
    else
      match splitVirgule (pyStrip s.data) with
      | [vx, vy] =>
        match parsePyFloatChars vx, parsePyFloatChars vy with
        | some x, some y => (fusionParseLignes (n + 1) reste).map (fun pts => (x, y) :: pts)
        | _, _ => Except.error (ErreurFusion.valeursNonNumeriques n)
      | _ => Except.error (ErreurFusion.formatIncorrect n)

/-- Model of the Fusion `read_points_file` (Fusion 4 I.A/voronoi_app.py
lines 23-63): run the line loop, then require at least 2 points with a
countless message. -/
def read_points_file (lignes : List String) :
    Except ErreurFusion (List (PyFloat × PyFloat)) :=
  match fusionParseLignes 1 lignes with
  | Except.error e => Except.error e
  | Except.ok pts =>
    if pts.length < 2 then Except.error ErreurFusion.moinsDeDeuxPoints
    else Except.ok pts

/-- C5 (amended): whenever the earlier lines parse cleanly and a later
non-blank line splits into exactly two fields of which at least one is
rejected by Python's `float`, the claude parser fails with a non-numeric
error carrying that line's 1-based number and both field texts (the
offending field among them, as in the source message), and no point list
is returned.  Two retreats from the original claim, each forced by
`parse_non_numeric_counterexample`: `float` accepts the non-finite
spellings `inf`/`infinity`/`nan`, so "finite decimal" and "no non-finite
coordinate is ever accepted" fail; and the cited Gemini parser's error
names only the line number, never the offending field. -/
theorem parse_non_numeric_error (pre post : List String) (l : String)
    (pts : List (PyFloat × PyFloat)) (vx vy : List Char)
    (hpre : lireLignes 1 pre = Except.ok pts)
    (hnb : pyStrip l.data ≠ [])
    (hsplit : splitVirgule (pyStrip l.data) = [vx, vy])
    (hbad : parsePyFloatChars vx = none ∨ parsePyFloatChars vy = none) :
    lire_coordonnees (pre ++ l :: post)
      = Except.error (ErreurLecture.nonNumerique (pre.length + 1) vx vy) := by
  have h1 := lireLignes_append_ok pre 1 pts (l :: post) hpre
  have h2 : lireLignes (1 + pre.length) (l :: post)
      = Except.error (ErreurLecture.nonNumerique (1 + pre.length) vx vy) := by
    rcases hx : parsePyFloatChars vx with _ | x
    · simp [lireLignes, hnb, hsplit, hx]
    · rcases hbad with hbad | hbad
      · rw [hx] at hbad; cases hbad
      · simp [lireLignes, hnb, hsplit, hx, hbad]
  unfold lire_coordonnees
  rw [h1, h2, Nat.add_comm 1 pre.length]
  rfl

/-- C5 counterexample, in two parts.  First, the line `inf,0` is accepted
(`float('inf')` succeeds): parsing does not fail and a point with a
non-finite coordinate enters the returned list, contradicting "every field
must parse as a finite decimal" and "no non-finite coordinate is ever
accepted".  Second, the cited Gemini parser returns the *same* error value
for the non-numeric lines `abc,def` and `xy,zw`, so its error cannot
identify the offending field, contradicting "error identifying the line
number and offending field" for that source. -/
theorem parse_non_numeric_counterexample :
    lire_coordonnees ["inf,0", "1,2"]
      = Except.ok [(PyFloat.inf, PyFloat.finite 0), (PyFloat.finite 1, PyFloat.finite 2)] ∧
    parse_points_file ["abc,def", "1,2"] = Except.error (ErreurGemini.nonNumerique 1) ∧
    parse_points_file ["xy,zw", "1,2"] = Except.error (ErreurGemini.nonNumerique 1) := by
  refine ⟨?_, ?_, ?_⟩ <;> with_unfolding_all rfl

theorem parse_non_numeric_error_witness :
    lire_coordonnees ["1,2", "abc,def"]
      = Except.error (ErreurLecture.nonNumerique 2 ['a', 'b', 'c'] ['d', 'e', 'f']) :=
  parse_non_numeric_error ["1,2"] [] "abc,def" [(PyFloat.finite 1, PyFloat.finite 2)]
    ['a', 'b', 'c'] ['d', 'e', 'f'] (by with_unfolding_all rfl) (by decide) (by decide)
    (Or.inl (by with_unfolding_all rfl))

/-- C6 (amended): in the claude parser a non-blank line that does not split
into exactly two comma-separated fields aborts the parse with a
malformed-line error carrying its 1-based line number and no partial point
list; the phase-1 parser, by contrast, silently skips such a line
(`phase1_skips_malformed_line`), so the original universal claim is
restricted to the validating parser. -/
theorem malformed_line_behaviour :
    (∀ (pre post : List String) (l : String) (pts : List (PyFloat × PyFloat)),
      lireLignes 1 pre = Except.ok pts →
      pyStrip l.data ≠ [] →
      (splitVirgule (pyStrip l.data)).length ≠ 2 →
      lire_coordonnees (pre ++ l :: post)
        = Except.error (ErreurLecture.malFormatee (pre.length + 1))) ∧
    (∀ (pre post : List String) (l : String),
      (splitVirgule (pyStrip l.data)).length ≠ 2 →
      lire_coordonnees_phase1 (pre ++ l :: post) = lire_coordonnees_phase1 (pre ++ post)) := by
  constructor
  · intro pre post l pts hpre hnb hlen
    have h1 := lireLignes_append_ok pre 1 pts (l :: post) hpre
    have h2 : lireLignes (1 + pre.length) (l :: post)
        = Except.error (ErreurLecture.malFormatee (1 + pre.length)) := by
      rcases hsp : splitVirgule (pyStrip l.data) with _ | ⟨vx, r2⟩
      · simp [lireLignes, hnb, hsp]
      · rcases r2 with _ | ⟨vy, r3⟩
        · simp [lireLignes, hnb, hsp]
        · rcases r3 with _ | ⟨vz, r4⟩
          · rw [hsp] at hlen; simp at hlen
          · simp [lireLignes, hnb, hsp]
    unfold lire_coordonnees
    rw [h1, h2, Nat.add_comm 1 pre.length]
    rfl
  · intro pre post l hlen
    induction pre with
    | nil =>
      simp only [List.nil_append]
      rcases hsp : splitVirgule (pyStrip l.data) with _ | ⟨vx, r2⟩
      · simp [lire_coordonnees_phase1, hsp]
      · rcases r2 with _ | ⟨vy, r3⟩
        · simp [lire_coordonnees_phase1, hsp]
        · rcases r3 with _ | ⟨vz, r4⟩
          · rw [hsp] at hlen; simp at hlen
          · simp [lire_coordonnees_phase1, hsp]
    | cons s pre ih =>
      simp only [List.cons_append]
      rcases hs : splitVirgule (pyStrip s.data) with _ | ⟨vx, r2⟩
      · simp [lire_coordonnees_phase1, hs, ih]
      · rcases r2 with _ | ⟨vy, r3⟩
        · simp [lire_coordonnees_phase1, hs, ih]
        · rcases r3 with _ | ⟨vz, r4⟩
          · rcases hx : parsePyFloatChars vx with _ | x
            · simp [lire_coordonnees_phase1, hs, hx]
            · rcases hy : parsePyFloatChars vy with _ | y
              · simp [lire_coordonnees_phase1, hs, hx, hy]
              · simp [lire_coordonnees_phase1, hs, hx, hy, ih]
          · simp [lire_coordonnees_phase1, hs, ih]

/-- C6 counterexample: the phase-1 parser (cited by the claim) silently
skips the malformed line `1,2,3` — parsing succeeds, no error names the
line, contradicting "parsing fails ... the line is never silently
skipped". -/
theorem phase1_skips_malformed_line :
    lire_coordonnees_phase1 ["1,2,3", "0,0", "1,1"]
      = Except.ok [(PyFloat.finite 0, PyFloat.finite 0), (PyFloat.finite 1, PyFloat.finite 1)] := by
  with_unfolding_all rfl

theorem malformed_line_behaviour_witness :
    lire_coordonnees ["7,8", "1,2,3"] = Except.error (ErreurLecture.malFormatee 2) ∧
    lire_coordonnees_phase1 ["9,9,9", "0,0"] = lire_coordonnees_phase1 ["0,0"] :=
  ⟨malformed_line_behaviour.1 ["7,8"] [] "1,2,3" [(PyFloat.finite 7, PyFloat.finite 8)]
      (by with_unfolding_all rfl) (by decide) (by decide),
   malformed_line_behaviour.2 [] ["0,0"] "9,9,9" (by decide)⟩

/-- C7 (amended): when the line loop completes with fewer than 2 parsed
points (empty input and the single line `5,10` included), both cited
parsers fail with an insufficient-points error and no point list is
returned.  The claude parser's error carries the found count (its message
states the required 2 versus the count found); the Fusion
`read_points_file` error is a fixed message that states only the
requirement — `fusion_insufficient_error_without_count` shows it is the
same error value whatever the found count, so the original "message states
how many points are required versus found" is restricted to the claude
parser. -/
theorem insufficient_points_error :
    (∀ (lignes : List String) (pts : List (PyFloat × PyFloat)),
      lireLignes 1 lignes = Except.ok pts → pts.length < 2 →
      lire_coordonnees lignes = Except.error (ErreurLecture.pointsInsuffisants pts.length)) ∧
    lire_coordonnees [] = Except.error (ErreurLecture.pointsInsuffisants 0) ∧
    lire_coordonnees ["5,10"] = Except.error (ErreurLecture.pointsInsuffisants 1) ∧
    (∀ (lignes : List String) (pts : List (PyFloat × PyFloat)),
      fusionParseLignes 1 lignes = Except.ok pts → pts.length < 2 →
      read_points_file lignes = Except.error ErreurFusion.moinsDeDeuxPoints) := by
  refine ⟨?_, by with_unfolding_all rfl, by with_unfolding_all rfl, ?_⟩
  · intro lignes pts h hlt
    have hmain : lire_coordonnees lignes
        = if pts.length < 2 then Except.error (ErreurLecture.pointsInsuffisants pts.length)
          else Except.ok pts := by
      unfold lire_coordonnees
      rw [h]
    rw [hmain, if_pos hlt]
  · intro lignes pts h hlt
    have hmain : read_points_file lignes
        = if pts.length < 2 then Except.error ErreurFusion.moinsDeDeuxPoints
          else Except.ok pts := by
      unfold read_points_file
      rw [h]
    rw [hmain, if_pos hlt]

/-- C7 counterexample: the cited Fusion `read_points_file` raises the same
error value on the empty input (0 points found) and on the single line
`5,10` (1 point found) — its message is the fixed string "Le fichier doit
contenir au moins 2 points pour générer un diagramme.", which cannot state
how many points were found, contradicting "message states how many points
are required versus found" for that source. -/
theorem fusion_insufficient_error_without_count :
    read_points_file [] = Except.error ErreurFusion.moinsDeDeuxPoints ∧
    read_points_file ["5,10"] = Except.error ErreurFusion.moinsDeDeuxPoints := by
  refine ⟨?_, ?_⟩ <;> with_unfolding_all rfl

theorem insufficient_points_error_witness :
    lire_coordonnees ["0,0"] = Except.error (ErreurLecture.pointsInsuffisants 1) ∧
    read_points_file ["3,4"] = Except.error ErreurFusion.moinsDeDeuxPoints :=
  ⟨insufficient_points_error.1 ["0,0"] [(PyFloat.finite 0, PyFloat.finite 0)]
      (by with_unfolding_all rfl) (by decide),
   insufficient_points_error.2.2.2 ["3,4"] [(PyFloat.finite 3, PyFloat.finite 4)]
      (by with_unfolding_all rfl) (by decide)⟩

/-- Model of `np.allclose` on 2-D points with numpy's default tolerances
`rtol = 1e-5`, `atol = 1e-8`: elementwise `|a - b| <= atol + rtol * |b|`. -/
def np_allclose (a b : ℚ × ℚ) : Bool :=
  decide (|a.1 - b.1| ≤ 1 / 100000000 + 1 / 100000 * |b.1|) &&
  decide (|a.2 - b.2| ≤ 1 / 100000000 + 1 / 100000 * |b.2|)

/-- Model of `line_intersection` (GrokCodeFast1/voronoi_app.py lines
63-83): solve the 2x2 system with columns `d1`, `-d2` and right-hand side
`p2 - p1` by Cramer's rule, returning the point `p1 + t * d1`; `none` when
the matrix is singular (parallel directions), exactly the case in which
`np.linalg.solve` raises `LinAlgError`. -/
def line_intersection (p1 d1 p2 d2 : ℚ × ℚ) : Option (ℚ × ℚ) :=
  if d1.1 * (-d2.2) - (-d2.1) * d1.2 = 0 then none
  else
    some (p1.1 + ((p2.1 - p1.1) * (-d2.2) - (-d2.1) * (p2.2 - p1.2))
            / (d1.1 * (-d2.2) - (-d2.1) * d1.2) * d1.1,
          p1.2 + ((p2.1 - p1.1) * (-d2.2) - (-d2.1) * (p2.2 - p1.2))
            / (d1.1 * (-d2.2) - (-d2.1) * d1.2) * d1.2)

/-- Midpoint and perpendicular direction of the bisector between the fixed
site and another site (`compute_region` body): `mid = (point + p) / 2`,
`dir = p - point`, `perp = (-dir.y, dir.x)`.  The source divides `perp` by
its Euclidean norm, which is positive because neighbours are not allclose
to the site; rescaling a direction by a positive factor changes neither the
line, nor parallelism, nor the returned intersection point, so the
unnormalised direction is used, keeping the computation inside `ℚ`. -/
def bisectrice (point p : ℚ × ℚ) : (ℚ × ℚ) × (ℚ × ℚ) :=
  (((point.1 + p.1) / 2, (point.2 + p.2) / 2), (-(p.2 - point.2), p.1 - point.1))

/-- Ordered pairs `(l[i], l[j])` with `i < j`, in the source's double-loop
order. -/
def listePaires {α : Type} : List α → List (α × α)
  | [] => []
  | x :: xs => xs.map (fun y => (x, y)) ++ listePaires xs

/-- Candidate vertices of `compute_region` (GrokCodeFast1/voronoi_app.py
lines 98-112): for every pair of neighbours (sites not allclose to the
fixed site), the intersection of the two bisector lines; parallel pairs
contribute nothing (dropped silently). -/
def candidates (point : ℚ × ℚ) (points : List (ℚ × ℚ)) : List (ℚ × ℚ) :=
  (listePaires (points.filter (fun p => !(np_allclose p point)))).filterMap
    (fun pq =>
      line_intersection (bisectrice point pq.1).1 (bisectrice point pq.1).2
        (bisectrice point pq.2).1 (bisectrice point pq.2).2)

/-- Band of the `np.angle`-style angle of a vector: angles in `(-π, 0)`
(lower half-plane), `0` (nonnegative x-axis, including the origin),
`(0, π)` (upper half-plane), `π` (negative x-axis), in increasing order. -/
def angTier (v : ℚ × ℚ) : ℕ :=
  if v.2 < 0 then 0
  else if 0 < v.2 then 2
  else if v.1 < 0 then 3
  else 1

def prodCroix (v w : ℚ × ℚ) : ℚ :=
  v.1 * w.2 - v.2 * w.1

/-- Exact comparison of the `np.angle` values of two rational vectors:
compare the angle band first; inside an open half-plane band the sign of
the cross product decides, and inside the two axis bands all angles are
equal. -/
def angLe (v w : ℚ × ℚ) : Prop :=
  angTier v < angTier w ∨ (angTier v = angTier w ∧ 0 ≤ prodCroix v w)

instance : DecidableRel angLe := fun v w => by
  unfold angLe
  infer_instance

/-- Sorting relation of `compute_region`: compare the angles of the
displacement vectors around the fixed site. -/
def angRel (c : ℚ × ℚ) (v w : ℚ × ℚ) : Prop :=
  angLe (v.1 - c.1, v.2 - c.2) (w.1 - c.1, w.2 - c.2)

instance (c : ℚ × ℚ) : DecidableRel (angRel c) := fun v w => by
  unfold angRel
  infer_instance

lemma angTier_spec (v : ℚ × ℚ) :
    (angTier v = 0 → v.2 < 0) ∧ (angTier v = 2 → 0 < v.2) ∧
    (angTier v = 1 → v.2 = 0) ∧ (angTier v = 3 → v.2 = 0) := by
  unfold angTier
  split_ifs with h1 h2 h3
  · exact ⟨fun _ => h1, fun hh => by norm_num at hh, fun hh => by norm_num at hh,
      fun hh => by norm_num at hh⟩
  · exact ⟨fun hh => by norm_num at hh, fun _ => h2, fun hh => by norm_num at hh,
      fun hh => by norm_num at hh⟩
  · exact ⟨fun hh => by norm_num at hh, fun hh => by norm_num at hh,
      fun hh => by norm_num at hh, fun _ => le_antisymm (not_lt.mp h2) (not_lt.mp h1)⟩
  · exact ⟨fun hh => by norm_num at hh, fun hh => by norm_num at hh,
      fun _ => le_antisymm (not_lt.mp h2) (not_lt.mp h1), fun hh => by norm_num at hh⟩

lemma angLe_total (v w : ℚ × ℚ) : angLe v w ∨ angLe w v := by
  unfold angLe
  rcases Nat.lt_trichotomy (angTier v) (angTier w) with h | h | h
  · exact Or.inl (Or.inl h)
  · rcases le_total 0 (prodCroix v w) with hc | hc
    · exact Or.inl (Or.inr ⟨h, hc⟩)
    · refine Or.inr (Or.inr ⟨h.symm, ?_⟩)
      have hskew : prodCroix w v = -prodCroix v w := by unfold prodCroix; ring
      rw [hskew]; linarith
  · exact Or.inr (Or.inl h)

lemma angLe_trans (v w u : ℚ × ℚ) (h1 : angLe v w) (h2 : angLe w u) : angLe v u := by
  unfold angLe at h1 h2 ⊢
  rcases h1 with h1 | ⟨h1t, h1c⟩
  · rcases h2 with h2 | ⟨h2t, h2c⟩
    · exact Or.inl (lt_trans h1 h2)
    · exact Or.inl (h2t ▸ h1)
  · rcases h2 with h2 | ⟨h2t, h2c⟩
    · exact Or.inl (h1t ▸ h2)
    · refine Or.inr ⟨h1t.trans h2t, ?_⟩
      have key : prodCroix v u * w.2 = prodCroix v w * u.2 + prodCroix w u * v.2 := by
        unfold prodCroix; ring
      rcases lt_trichotomy w.2 0 with hw | hw | hw
      · have htw : angTier w = 0 := by
          unfold angTier; rw [if_pos hw]
        have hv2 : v.2 < 0 := (angTier_spec v).1 (h1t.trans htw)
        have hu2 : u.2 < 0 := (angTier_spec u).1 (by rw [← h2t]; exact htw)
        have t1 : prodCroix v w * u.2 ≤ 0 :=
          mul_nonpos_iff.mpr (Or.inl ⟨h1c, le_of_lt hu2⟩)
        have t2 : prodCroix w u * v.2 ≤ 0 :=
          mul_nonpos_iff.mpr (Or.inl ⟨h2c, le_of_lt hv2⟩)
        nlinarith [key]
      · have hv2 : v.2 = 0 := by
          by_cases hw1 : w.1 < 0
          · have htw : angTier w = 3 := by
              unfold angTier
              rw [if_neg (by rw [hw]; exact lt_irrefl 0), if_neg (by rw [hw]; exact lt_irrefl 0),
                if_pos hw1]
            exact (angTier_spec v).2.2.2 (h1t.trans htw)
          · have htw : angTier w = 1 := by
              unfold angTier
              rw [if_neg (by rw [hw]; exact lt_irrefl 0), if_neg (by rw [hw]; exact lt_irrefl 0),
                if_neg hw1]
            exact (angTier_spec v).2.2.1 (h1t.trans htw)
        have hu2 : u.2 = 0 := by
          by_cases hw1 : w.1 < 0
          · have htw : angTier w = 3 := by
              unfold angTier
              rw [if_neg (by rw [hw]; exact lt_irrefl 0), if_neg (by rw [hw]; exact lt_irrefl 0),
                if_pos hw1]
            exact (angTier_spec u).2.2.2 (by rw [← h2t]; exact htw)
          · have htw : angTier w = 1 := by
              unfold angTier
              rw [if_neg (by rw [hw]; exact lt_irrefl 0), if_neg (by rw [hw]; exact lt_irrefl 0),
                if_neg hw1]
            exact (angTier_spec u).2.2.1 (by rw [← h2t]; exact htw)
        have hz : prodCroix v u = 0 := by
          unfold prodCroix; rw [hv2, hu2]; ring
        rw [hz]
      · have htw : angTier w = 2 := by
          unfold angTier; rw [if_neg (by linarith), if_pos hw]
        have hv2 : 0 < v.2 := (angTier_spec v).2.1 (h1t.trans htw)
        have hu2 : 0 < u.2 := (angTier_spec u).2.1 (by rw [← h2t]; exact htw)
        have t1 : 0 ≤ prodCroix v w * u.2 := mul_nonneg h1c (le_of_lt hu2)
        have t2 : 0 ≤ prodCroix w u * v.2 := mul_nonneg h2c (le_of_lt hv2)
        nlinarith [key]

instance (c : ℚ × ℚ) : IsTotal (ℚ × ℚ) (angRel c) :=
  ⟨fun v w => angLe_total (v.1 - c.1, v.2 - c.2) (w.1 - c.1, w.2 - c.2)⟩

instance (c : ℚ × ℚ) : IsTrans (ℚ × ℚ) (angRel c) :=
  ⟨fun v w u => angLe_trans (v.1 - c.1, v.2 - c.2) (w.1 - c.1, w.2 - c.2)
    (u.1 - c.1, u.2 - c.2)⟩

/-- Model of `compute_region` (GrokCodeFast1/voronoi_app.py lines 85-121):
collect the bisector-pair intersections, return `None` when the candidate
list is empty (`if vertices:`), otherwise the candidates sorted by angle
around the site (`np.angle` + `np.argsort`; an insertion sort by exact
angle order realises one valid argsort order). -/
def compute_region (point : ℚ × ℚ) (points : List (ℚ × ℚ)) : Option (List (ℚ × ℚ)) :=
  if candidates point points = [] then none
  else some (List.insertionSort (angRel point) (candidates point points))

/-- C9 (amended): `compute_region` returns `None` exactly when *zero*
usable candidate vertices are found (for example with only 2 sites total
there is no bisector pair at all); whenever it returns a polygon, that
polygon is the full candidate list sorted by angle around the site, hence
nonempty — but it may have only 1 or 2 vertices, as
`compute_region_with_one_vertex` shows: polygons with fewer than 3
vertices are discarded only later, by the `len(region) > 2` guard of
`plot_voronoi`. -/
theorem compute_region_spec (point : ℚ × ℚ) (points : List (ℚ × ℚ)) :
    (compute_region point points = none ↔ candidates point points = []) ∧
    (∀ vs, compute_region point points = some vs →
      vs ≠ [] ∧ vs.length = (candidates point points).length ∧
      List.Sorted (angRel point) vs ∧ vs.Perm (candidates point points)) := by
  constructor
  · constructor
    · intro h
      by_contra hc
      unfold compute_region at h
      rw [if_neg hc] at h
      cases h
    · intro h
      unfold compute_region
      rw [if_pos h]
  · intro vs hvs
    unfold compute_region at hvs
    by_cases hc : candidates point points = []
    · rw [if_pos hc] at hvs; cases hvs
    · rw [if_neg hc] at hvs
      have hvs' : vs = List.insertionSort (angRel point) (candidates point points) :=
        (Option.some.inj hvs).symm
      subst hvs'
      have hperm := List.perm_insertionSort (angRel point) (candidates point points)
      refine ⟨?_, hperm.length_eq, List.sorted_insertionSort (angRel point) _, hperm⟩
      intro hnil
      apply hc
      have h0 : (candidates point points).length = 0 := by
        rw [← hperm.length_eq, hnil]
        rfl
      exact List.length_eq_zero.mp h0

/-- C9 counterexample: with the three sites (0,0), (1,0), (0,1), the cell
computation for site (0,0) finds exactly one usable candidate vertex,
(1/2, 1/2).  The claim requires `None`/empty whenever fewer than 3 usable
vertices are found and at least 3 vertices in any returned polygon, yet the
code returns a 1-vertex polygon. -/
theorem compute_region_with_one_vertex :
    compute_region ((0 : ℚ), (0 : ℚ))
        [((0 : ℚ), (0 : ℚ)), ((1 : ℚ), (0 : ℚ)), ((0 : ℚ), (1 : ℚ))]
      = some [((1 : ℚ) / 2, (1 : ℚ) / 2)] := by
  with_unfolding_all rfl

theorem compute_region_spec_witness :
    ([((1 : ℚ), (1 : ℚ))] : List (ℚ × ℚ)) ≠ [] ∧
    ([((1 : ℚ), (1 : ℚ))] : List (ℚ × ℚ)).length
      = (candidates ((0 : ℚ), (0 : ℚ))
          [((0 : ℚ), (0 : ℚ)), ((2 : ℚ), (0 : ℚ)), ((0 : ℚ), (2 : ℚ))]).length ∧
    List.Sorted (angRel ((0 : ℚ), (0 : ℚ))) [((1 : ℚ), (1 : ℚ))] ∧
    List.Perm [((1 : ℚ), (1 : ℚ))]
      (candidates ((0 : ℚ), (0 : ℚ))
        [((0 : ℚ), (0 : ℚ)), ((2 : ℚ), (0 : ℚ)), ((0 : ℚ), (2 : ℚ))]) :=
  (compute_region_spec ((0 : ℚ), (0 : ℚ))
      [((0 : ℚ), (0 : ℚ)), ((2 : ℚ), (0 : ℚ)), ((0 : ℚ), (2 : ℚ))]).2
    [((1 : ℚ), (1 : ℚ))] (by with_unfolding_all rfl)
